/-
Verification of the snappy-nt arithmetic-invariant engine
(src/snappynt/ManifoldAP.py and src/snappynt/field_isomorphisms.py)
against its natural-language specification.

Shallow embedding notes:
* The external collaborators (snappy's holonomy/field-recognition
  machinery, Sage's exact algebra backend) are modelled as oracle
  functions gathered in a `Backend` structure.  The state stored on a
  `ManifoldAP` instance is the `RecState` structure.  Every method of
  the Python class becomes a pure function `Backend → RecState → ... →
  result × RecState`.
* Python's unbounded `while` loops are modelled with an explicit fuel
  parameter; all loop claims are stated for arbitrary or sufficient
  fuel.
* Sage's `NumberField.signature()` returns the pair
  (number of real embeddings, number of pairs of complex embeddings);
  the `sig` oracle field follows that convention.
* A Sage prime ideal's `absolute_norm()` equals p^f where p is the
  rational prime below the ideal and f its residue degree; in concrete
  instantiations ideals are represented by such pairs (p, f).
-/

import Mathlib

namespace SnappyNT

/-- Python dict lookup model: a `(prec, degree)`-keyed record. -/
def PrecRecord : Type := (Nat × Nat) → Option Bool

/-- Python `d[k] = v`: overwrite the entry at key `k`. -/
def pdInsert (k : Nat × Nat) (v : Bool) (d : PrecRecord) : PrecRecord :=
  fun k' => if k' = k then some v else d k'

/-- The empty attempt record (a fresh `dict()`). -/
def pdEmpty : PrecRecord := fun _ => none

/-- Python truthiness of an optional list attribute
(`if not self.trace_field_generators:`): `None` and `[]` are falsy. -/
def pyTruthyList {α : Type} : Option (List α) → Bool
  | none => false
  | some l => !l.isEmpty

/-- Class attribute `ManifoldAP.default_starting_prec` (class attribute). -/
def default_starting_prec : Nat := 1000

/-- Class attribute `ManifoldAP.default_starting_degree` (class attribute). -/
def default_starting_degree : Nat := 10

/-- Class attribute `ManifoldAP.default_max_prec` (class attribute). -/
def default_max_prec : Nat := 10 ^ 6

/-- Class attribute `ManifoldAP.default_max_degree` (class attribute). -/
def default_max_degree : Nat := 100

/-- Class attribute `ManifoldAP.default_prec_increment` (class attribute). -/
def default_prec_increment : Nat := 5000

/-- Class attribute `ManifoldAP.default_degree_increment` (class attribute). -/
def default_degree_increment : Nat := 5

section Model

/-
Type parameters:
`K`  exact number fields, `R` numerical roots (ApproximateAlgebraicNumbers),
`G`  exact trace-field generator expressions, `Q` quaternion algebras,
`Idl` prime ideals, `DId` denominator (fractional) ideals,
`F`  number-field elements (Hilbert-symbol entries),
`A`  ApproximateAlgebraicNumbers produced by trace arithmetic,
`Grp` polished holonomy representations, `Word` words in the group
generators, `P` real places.
-/
variable (K R G Q Idl DId F A Grp Word P : Type)

/-- The mutable attribute set of a `ManifoldAP` instance
(`ManifoldAP.__init__`, src/snappynt/ManifoldAP.py lines 52-68). -/
structure RecState where
  trace_field : Option K
  trace_field_numerical_root : Option R
  trace_field_generators : Option (List G)
  trace_field_prec_record : PrecRecord
  invariant_trace_field : Option K
  invariant_trace_field_numerical_root : Option R
  invariant_trace_field_generators : Option (List G)
  invariant_trace_field_prec_record : PrecRecord
  quaternion_algebra : Option Q
  quaternion_algebra_ramified_places : Option (List Idl)
  quaternion_algebra_ramified_places_residue_characteristics : Option (List Nat)
  invariant_quaternion_algebra : Option Q
  invariant_quaternion_algebra_ramified_places : Option (List Idl)
  invariant_quaternion_algebra_ramified_places_residue_characteristics : Option (List Nat)
  denominators : Option (Finset Idl)
  denominator_residue_characteristics : Option (Finset Nat)

/-- The external collaborators consumed by the class, as oracles.
Each field corresponds to one call site in the Python source. -/
structure Backend where
  /-- Oracle for `snappy.snap.trace_field_gens(self).find_field(prec, degree, optimize=True)`:
  on success a triple (field, numerical root, exact generators). -/
  tf_find : Nat → Nat → Option (K × R × List G)
  /-- Oracle for `snappy.snap.invariant_trace_field_gens(self).find_field(...)`. -/
  itf_find : Nat → Nat → Option (K × R × List G)
  /-- Oracle for `self.defining_function(prec)` = `snappy.snap.polished_holonomy(self, prec)`. -/
  polished : Nat → Grp
  /-- Oracle for `irreducible_subgroups.find_hilbert_symbol_words(G)` — called in the
  source with the single argument `self.defining_function(...)`. -/
  hilbert_words : Grp → Word × Word
  /-- Modelled from the spec: `misc_functions.commutator_of_words(w1, w2)`
  (module absent from src/) returns the commutator word [w1, w2]. -/
  commutator_of_words : Word → Word → Word
  /-- Oracle for `self.approximate_trace(word)`: the ApproximateAlgebraicNumber whose
  defining procedure evaluates the holonomy and takes the matrix trace. -/
  approx_trace : Word → A
  /-- Oracle for `primitive_element.express(target, prec)`: heuristic expression of an
  approximate number in the field generator; `none` on failure. -/
  express : R → A → Nat → Option F
  /-- Oracle for `QuaternionAlgebra(field, first_entry, second_entry)` (Sage). -/
  quat : K → F → F → Q
  /-- Oracle for `algebra.discriminant().factor()`: prime ideals with multiplicities. -/
  disc_factor : Q → List (Idl × Nat)
  /-- Oracle for `ideal.absolute_norm()` (Sage): p^f for a prime ideal over p with
  residue degree f. -/
  abs_norm : Idl → Nat
  /-- Oracle for `element.denominator_ideal()` (Sage). -/
  denom_ideal : G → DId
  /-- Oracle for `ideal.factor()` on a denominator ideal. -/
  did_factor : DId → List (Idl × Nat)
  /-- Oracle for `field.signature()` (Sage): (real embeddings, pairs of complex ones). -/
  sig : K → Nat × Nat
  /-- Modelled from the spec: `misc_functions.ramified_real_places(algebra)`
  (module absent from src/) lists the real places of the base field at
  which the algebra ramifies. -/
  ramified_real_places : Q → List P

variable {K R G Q Idl DId F A Grp Word P}

/-- Embeds `ManifoldAP.compute_trace_field_fixed_prec` (lines 87-104): one
recognition attempt; records success in `trace_field_prec_record`; on
success stores field, root and generators; returns `self.trace_field`. -/
def compute_trace_field_fixed_prec (b : Backend K R G Q Idl DId F A Grp Word P)
    (s : RecState K R G Q Idl) (prec degree : Nat) :
    Option K × RecState K R G Q Idl :=
  let exact_field_data := b.tf_find prec degree
  let rec1 := pdInsert (prec, degree) exact_field_data.isSome s.trace_field_prec_record
  let s1 := { s with trace_field_prec_record := rec1 }
  match exact_field_data with
  | none => (s1.trace_field, s1)
  | some (k, r, gens) =>
      let s2 := { s1 with
        trace_field := some k
        trace_field_numerical_root := some r
        trace_field_generators := some gens }
      (s2.trace_field, s2)

/-- Embeds `ManifoldAP.compute_invariant_trace_field_fixed_prec` (lines 106-124). -/
def compute_invariant_trace_field_fixed_prec (b : Backend K R G Q Idl DId F A Grp Word P)
    (s : RecState K R G Q Idl) (prec degree : Nat) :
    Option K × RecState K R G Q Idl :=
  let exact_field_data := b.itf_find prec degree
  let rec1 := pdInsert (prec, degree) exact_field_data.isSome s.invariant_trace_field_prec_record
  let s1 := { s with invariant_trace_field_prec_record := rec1 }
  match exact_field_data with
  | none => (s1.invariant_trace_field, s1)
  | some (k, r, gens) =>
      let s2 := { s1 with
        invariant_trace_field := some k
        invariant_trace_field_numerical_root := some r
        invariant_trace_field_generators := some gens }
      (s2.invariant_trace_field, s2)

/-- The clamped increment used by every escalation loop
(`if prec + prec_increment <= max_precision: ... else: prec = max_precision`). -/
def bump (inc maxv v : Nat) : Nat :=
  if v + inc ≤ maxv then v + inc else maxv

/-- Embeds `ManifoldAP.compute_approximate_hilbert_symbol` (lines 242-271).
The source accepts a `power` parameter (defaulting to 1) but passes only
`self.defining_function(prec=ManifoldAP.default_starting_prec)` to
`irreducible_subgroups.find_hilbert_symbol_words`; the entries are
`trace(word1)^2 - 4` and `trace([word1, word2]) - 2`. -/
def compute_approximate_hilbert_symbol [CommRing A]
    (b : Backend K R G Q Idl DId F A Grp Word P) (power : Nat) : A × A :=
  let words := b.hilbert_words (b.polished default_starting_prec)
  let first_entry := b.approx_trace words.1 ^ 2 - 4
  let commutator_word := b.commutator_of_words words.1 words.2
  let second_entry := b.approx_trace commutator_word - 2
  (first_entry, second_entry)

/-- The word pair selected inside `compute_approximate_hilbert_symbol`
(line 261-263); exposed for stating the selection claims. -/
def hilbert_symbol_words (b : Backend K R G Q Idl DId F A Grp Word P) : Word × Word :=
  b.hilbert_words (b.polished default_starting_prec)

/-- Embeds `ManifoldAP.compute_quaternion_algebra_fixed_prec` (lines 273-317).
If the trace field is unknown it is recomputed at this `(prec, degree)`;
the two Hilbert-symbol entries are expressed in the primitive element; on
any expression failure the function returns `None` without constructing
the algebra; on success the algebra, its ramified places (factorization of
the discriminant with multiplicities dropped) and the sorted
deduplicated `absolute_norm` values are stored. -/
def compute_quaternion_algebra_fixed_prec [CommRing A]
    (b : Backend K R G Q Idl DId F A Grp Word P)
    (s : RecState K R G Q Idl) (prec degree : Nat) :
    Option Q × RecState K R G Q Idl :=
  let s0 := if s.trace_field.isSome then s
            else (compute_trace_field_fixed_prec b s prec degree).2
  match s0.trace_field, s0.trace_field_numerical_root with
  | none, _ => (none, s0)
  | some _, none => (none, s0)
    -- the root is stored together with the field by every method of the
    -- class, so this branch is unreachable through the class's own API
  | some k, some primitive_element =>
    let entries := compute_approximate_hilbert_symbol b 1
    let first_entry := b.express primitive_element entries.1 prec
    let second_entry := b.express primitive_element entries.2 prec
    match first_entry, second_entry with
    | some f1, some f2 =>
      let qa := b.quat k f1 f2
      let discriminant_list := b.disc_factor qa
      let places := discriminant_list.map Prod.fst
      let rcs := ((places.map b.abs_norm).dedup).insertionSort (· ≤ ·)
      let s2 := { s0 with
        quaternion_algebra := some qa
        quaternion_algebra_ramified_places := some places
        quaternion_algebra_ramified_places_residue_characteristics := some rcs }
      (some qa, s2)
    | _, _ => (none, s0)

/-- Embeds `ManifoldAP.compute_invariant_quaternion_algebra_fixed_prec`
(lines 319-359); identical to the noninvariant version except that it
uses the invariant trace field and passes `power=2`. -/
def compute_invariant_quaternion_algebra_fixed_prec [CommRing A]
    (b : Backend K R G Q Idl DId F A Grp Word P)
    (s : RecState K R G Q Idl) (prec degree : Nat) :
    Option Q × RecState K R G Q Idl :=
  let s0 := if s.invariant_trace_field.isSome then s
            else (compute_invariant_trace_field_fixed_prec b s prec degree).2
  match s0.invariant_trace_field, s0.invariant_trace_field_numerical_root with
  | none, _ => (none, s0)
  | some _, none => (none, s0)
  | some k, some primitive_element =>
    let entries := compute_approximate_hilbert_symbol b 2
    let first_entry := b.express primitive_element entries.1 prec
    let second_entry := b.express primitive_element entries.2 prec
    match first_entry, second_entry with
    | some f1, some f2 =>
      let qa := b.quat k f1 f2
      let discriminant_list := b.disc_factor qa
      let places := discriminant_list.map Prod.fst
      let rcs := ((places.map b.abs_norm).dedup).insertionSort (· ≤ ·)
      let s2 := { s0 with
        invariant_quaternion_algebra := some qa
        invariant_quaternion_algebra_ramified_places := some places
        invariant_quaternion_algebra_ramified_places_residue_characteristics := some rcs }
      (some qa, s2)
    | _, _ => (none, s0)

/-- Embeds `ManifoldAP.compute_denominators_fixed_prec` (lines 447-496).
Requires the trace-field generators (recomputing the trace field at this
`(prec, degree)` if they are absent); unions the prime factors of every
generator's denominator ideal.  The set of denominator ideals is built in
the source with a set comprehension; folding over the list of generators
yields the same union of prime factors.
`denominatorsforsnappy.find_prime_factors_in_a_set` is modelled from the
spec (module absent from src/): the rational primes dividing some element
of the given set of norms. -/
def compute_denominators_fixed_prec [DecidableEq Idl]
    (b : Backend K R G Q Idl DId F A Grp Word P)
    (s : RecState K R G Q Idl) (prec degree : Nat) :
    Option (Finset Idl) × RecState K R G Q Idl :=
  let s0 := if pyTruthyList s.trace_field_generators then s
            else (compute_trace_field_fixed_prec b s prec degree).2
  match s0.trace_field_generators with
  | none => (none, s0)
  | some gens =>
    if gens.isEmpty then (none, s0)  -- Python truthiness: an empty list is falsy
    else
      let denominator_ideals := gens.map b.denom_ideal
      let prime_ideals : Finset Idl := denominator_ideals.foldl
        (fun acc i => acc ∪ ((b.did_factor i).map Prod.fst).toFinset) ∅
      let norms := prime_ideals.image b.abs_norm
      let rcs := norms.biUnion Nat.primeFactors
      let s1 := { s0 with
        denominators := some prime_ideals
        denominator_residue_characteristics := some rcs }
      (some prime_ideals, s1)

/-- Python exceptions surfaced by the embedded methods:
`AttributeError` (attribute access on `None`, or a missing embedding) and
`ValueError` (`min` of an empty sequence). -/
inductive PyErr where
  | attributeError
  | valueError
  deriving DecidableEq

/-- The final conjunct of `is_arithmetic`: `self.denominators == set()`.
In Python `None == set()` evaluates to `False` (no exception). -/
def pyDenomsEqEmptySet [DecidableEq Idl] : Option (Finset Idl) → Bool
  | none => false
  | some d => decide (d = ∅)

/-- Embeds `ManifoldAP.is_arithmetic` (lines 535-556).  The source unpacks
`self.invariant_trace_field.signature()` — whose Sage value is
(real embeddings, pairs of complex embeddings) — into the pair
`(number_of_complex_places, number_of_real_places)`, in that order, then
tests `number_of_ramified_real_places == number_of_real_places and
number_of_complex_places == 1 and self.denominators == set()`.
Attribute access on an absent (`None`) invariant trace field raises;
`misc_functions.ramified_real_places` applied to an absent algebra is
modelled from the spec as a hard error (module absent from src/). -/
def is_arithmetic [DecidableEq Idl]
    (b : Backend K R G Q Idl DId F A Grp Word P)
    (s : RecState K R G Q Idl) : Except PyErr Bool :=
  match s.invariant_trace_field with
  | none => .error .attributeError
  | some itf =>
    let signature := b.sig itf
    let number_of_complex_places := signature.1
    let number_of_real_places := signature.2
    match s.invariant_quaternion_algebra with
    | none => .error .attributeError
    | some alg =>
      let number_of_ramified_real_places := (b.ramified_real_places alg).length
      .ok (decide (number_of_ramified_real_places = number_of_real_places)
        && decide (number_of_complex_places = 1)
        && pyDenomsEqEmptySet s.denominators)

/-- Result of one escalation-driver run: returned value, final state, and
the list of `(prec, degree)` pairs attempted, in order. -/
structure LoopOut (α σ : Type) where
  result : α
  state : σ
  attempts : List (Nat × Nat)

/-- The `while exact_field == None` loop of `ManifoldAP.compute_trace_field`
(lines 161-184), with explicit fuel.  Each iteration attempts the fixed
`(prec, degree)` recognition; if both coordinates already equal their
maxima the loop returns `None` unconditionally (this check precedes the
`while` re-test in the source); otherwise both coordinates are bumped and
the loop re-tests `exact_field`. -/
def compute_trace_field_loop (b : Backend K R G Q Idl DId F A Grp Word P)
    (prec_increment degree_increment max_precision max_degree : Nat) :
    Nat → Nat → Nat → RecState K R G Q Idl →
    LoopOut (Option K) (RecState K R G Q Idl)
  | 0, _, _, s => ⟨none, s, []⟩
  | fuel + 1, prec, degree, s =>
    let step := compute_trace_field_fixed_prec b s prec degree
    if prec = max_precision ∧ degree = max_degree then ⟨none, step.2, [(prec, degree)]⟩
    else
      let prec' := bump prec_increment max_precision prec
      let degree' := bump degree_increment max_degree degree
      match step.1 with
      | some _ => ⟨step.2.trace_field, step.2, [(prec, degree)]⟩
      | none =>
        let rest := compute_trace_field_loop b prec_increment degree_increment
          max_precision max_degree fuel prec' degree' step.2
        ⟨rest.result, rest.state, (prec, degree) :: rest.attempts⟩

/-- Embeds `ManifoldAP.compute_trace_field` (lines 126-184): run the escalation
loop from the starting precision and degree. -/
def compute_trace_field (b : Backend K R G Q Idl DId F A Grp Word P)
    (starting_prec starting_degree prec_increment degree_increment
      max_precision max_degree fuel : Nat) (s : RecState K R G Q Idl) :
    LoopOut (Option K) (RecState K R G Q Idl) :=
  compute_trace_field_loop b prec_increment degree_increment max_precision max_degree
    fuel starting_prec starting_degree s

/-- The loop of `ManifoldAP.compute_invariant_trace_field` (lines 202-225). -/
def compute_invariant_trace_field_loop (b : Backend K R G Q Idl DId F A Grp Word P)
    (prec_increment degree_increment max_precision max_degree : Nat) :
    Nat → Nat → Nat → RecState K R G Q Idl →
    LoopOut (Option K) (RecState K R G Q Idl)
  | 0, _, _, s => ⟨none, s, []⟩
  | fuel + 1, prec, degree, s =>
    let step := compute_invariant_trace_field_fixed_prec b s prec degree
    if prec = max_precision ∧ degree = max_degree then ⟨none, step.2, [(prec, degree)]⟩
    else
      let prec' := bump prec_increment max_precision prec
      let degree' := bump degree_increment max_degree degree
      match step.1 with
      | some _ => ⟨step.2.invariant_trace_field, step.2, [(prec, degree)]⟩
      | none =>
        let rest := compute_invariant_trace_field_loop b prec_increment degree_increment
          max_precision max_degree fuel prec' degree' step.2
        ⟨rest.result, rest.state, (prec, degree) :: rest.attempts⟩

/-- Embeds `ManifoldAP.compute_invariant_trace_field` (lines 186-225). -/
def compute_invariant_trace_field (b : Backend K R G Q Idl DId F A Grp Word P)
    (starting_prec starting_degree prec_increment degree_increment
      max_precision max_degree fuel : Nat) (s : RecState K R G Q Idl) :
    LoopOut (Option K) (RecState K R G Q Idl) :=
  compute_invariant_trace_field_loop b prec_increment degree_increment max_precision
    max_degree fuel starting_prec starting_degree s

/-- The `while self.quaternion_algebra == None` loop of
`ManifoldAP.compute_quaternion_algebra` (lines 384-406).  The loop
condition reads the stored attribute (so a known algebra means the body
is never entered); the fixed-precision result is discarded; the maxima
check precedes the re-test of the condition, exactly as in the source. -/
def compute_quaternion_algebra_loop [CommRing A]
    (b : Backend K R G Q Idl DId F A Grp Word P)
    (prec_increment degree_increment max_precision max_degree : Nat) :
    Nat → Nat → Nat → RecState K R G Q Idl →
    LoopOut (Option Q) (RecState K R G Q Idl)
  | 0, _, _, s => ⟨none, s, []⟩
  | fuel + 1, prec, degree, s =>
    match s.quaternion_algebra with
    | some q => ⟨some q, s, []⟩
    | none =>
      let step := compute_quaternion_algebra_fixed_prec b s prec degree
      if prec = max_precision ∧ degree = max_degree then ⟨none, step.2, [(prec, degree)]⟩
      else
        let rest := compute_quaternion_algebra_loop b prec_increment degree_increment
          max_precision max_degree fuel (bump prec_increment max_precision prec)
          (bump degree_increment max_degree degree) step.2
        ⟨rest.result, rest.state, (prec, degree) :: rest.attempts⟩

/-- Embeds `ManifoldAP.compute_quaternion_algebra` (lines 361-406). -/
def compute_quaternion_algebra [CommRing A]
    (b : Backend K R G Q Idl DId F A Grp Word P)
    (starting_prec starting_degree prec_increment degree_increment
      max_precision max_degree fuel : Nat) (s : RecState K R G Q Idl) :
    LoopOut (Option Q) (RecState K R G Q Idl) :=
  compute_quaternion_algebra_loop b prec_increment degree_increment max_precision
    max_degree fuel starting_prec starting_degree s

/-- The loop of `ManifoldAP.compute_invariant_quaternion_algebra`
(lines 423-445). -/
def compute_invariant_quaternion_algebra_loop [CommRing A]
    (b : Backend K R G Q Idl DId F A Grp Word P)
    (prec_increment degree_increment max_precision max_degree : Nat) :
    Nat → Nat → Nat → RecState K R G Q Idl →
    LoopOut (Option Q) (RecState K R G Q Idl)
  | 0, _, _, s => ⟨none, s, []⟩
  | fuel + 1, prec, degree, s =>
    match s.invariant_quaternion_algebra with
    | some q => ⟨some q, s, []⟩
    | none =>
      let step := compute_invariant_quaternion_algebra_fixed_prec b s prec degree
      if prec = max_precision ∧ degree = max_degree then ⟨none, step.2, [(prec, degree)]⟩
      else
        let rest := compute_invariant_quaternion_algebra_loop b prec_increment
          degree_increment max_precision max_degree fuel (bump prec_increment max_precision prec)
          (bump degree_increment max_degree degree) step.2
        ⟨rest.result, rest.state, (prec, degree) :: rest.attempts⟩

/-- Embeds `ManifoldAP.compute_invariant_quaternion_algebra` (lines 408-445). -/
def compute_invariant_quaternion_algebra [CommRing A]
    (b : Backend K R G Q Idl DId F A Grp Word P)
    (starting_prec starting_degree prec_increment degree_increment
      max_precision max_degree fuel : Nat) (s : RecState K R G Q Idl) :
    LoopOut (Option Q) (RecState K R G Q Idl) :=
  compute_invariant_quaternion_algebra_loop b prec_increment degree_increment
    max_precision max_degree fuel starting_prec starting_degree s

/-- The `while self.denominators == None` loop of
`ManifoldAP.compute_denominators` (lines 513-533). -/
def compute_denominators_loop [DecidableEq Idl]
    (b : Backend K R G Q Idl DId F A Grp Word P)
    (prec_increment degree_increment max_precision max_degree : Nat) :
    Nat → Nat → Nat → RecState K R G Q Idl →
    LoopOut (Option (Finset Idl)) (RecState K R G Q Idl)
  | 0, _, _, s => ⟨none, s, []⟩
  | fuel + 1, prec, degree, s =>
    match s.denominators with
    | some d => ⟨some d, s, []⟩
    | none =>
      let step := compute_denominators_fixed_prec b s prec degree
      if prec = max_precision ∧ degree = max_degree then ⟨none, step.2, [(prec, degree)]⟩
      else
        let rest := compute_denominators_loop b prec_increment degree_increment
          max_precision max_degree fuel (bump prec_increment max_precision prec)
          (bump degree_increment max_degree degree) step.2
        ⟨rest.result, rest.state, (prec, degree) :: rest.attempts⟩

/-- Embeds `ManifoldAP.compute_denominators` (lines 498-533). -/
def compute_denominators [DecidableEq Idl]
    (b : Backend K R G Q Idl DId F A Grp Word P)
    (starting_prec starting_degree prec_increment degree_increment
      max_precision max_degree fuel : Nat) (s : RecState K R G Q Idl) :
    LoopOut (Option (Finset Idl)) (RecState K R G Q Idl) :=
  compute_denominators_loop b prec_increment degree_increment max_precision
    max_degree fuel starting_prec starting_degree s

end Model

section FieldIso

/-
Embedding of src/snappynt/field_isomorphisms.py.  The arbitrary-precision
complex values (`CC`) that the source compares are idealized as exact
rational pairs; only distances enter the computation, and comparing
squared moduli selects exactly the same minima (with the same
tie-breaking) as comparing the `abs` values of the source.  `E` is a
common carrier type for elements of the number fields under discussion.
-/

/-- An idealized `CC` value: (real part, imaginary part). -/
abbrev CVal : Type := ℚ × ℚ

/-- Squared modulus of `a - b`, the comparison key modelling
`abs(CC(a) - CC(b))`. -/
def cdistSq (a b : CVal) : ℚ := (a.1 - b.1) ^ 2 + (a.2 - b.2) ^ 2

/-- Python's `min(lst, key=k)`: the first element attaining the minimal
key (later elements replace the current best only when strictly
smaller); `none` for the empty list, where Python raises `ValueError`. -/
def pymin {α : Type} (k : α → ℚ) : List α → Option α
  | [] => none
  | x :: xs => some (xs.foldl (fun best y => if k y < k best then y else best) x)

/-- A Sage number field as consumed by `field_isomorphisms.py`: its
generator, the optional distinguished numerical root (`gen_embedding()`),
and the finite list `complex_embeddings()` in Sage's order, each
embedding acting on field elements.  Distinct embeddings of one field
have distinct values on the generator, and Sage's homomorphism equality
test compares exactly those generator images. -/
structure EmbNumberField (E : Type) where
  gen : E
  gen_embedding : Option CVal
  complex_embeddings : List (E → CVal)

/-- One entry of the Sage factorization of the domain field's defining
polynomial over the codomain field: the factor's degree together with
`-factor(0)`, the codomain element that a linear factor `x - a`
contributes as the image of the domain generator. -/
structure FactorDatum (E : Type) where
  degree : Nat
  negConstantTerm : E

/-- Embeds `isomorphisms_between_number_fields` (field_isomorphisms.py lines
57-77): iterate over the factorization (factor, multiplicity) pairs and,
for every linear factor, append the homomorphism
`domain_field.hom([-factor(0)])`; a homomorphism is represented by the
image of the domain generator.  The factorization itself is performed by
the exact algebra backend, so it enters here as data. -/
def isomorphisms_between_number_fields {E : Type}
    (factorization : List (FactorDatum E × Nat)) : List E :=
  ((factorization.map Prod.fst).filter (fun f => f.degree = 1)).map
    (fun f => f.negConstantTerm)

/-- Embeds `transfer_embedding` (lines 80-114): raises when the domain has no
distinguished embedding; otherwise selects, among the codomain's complex
embeddings, the one whose value on the image of the domain generator is
nearest to the domain's numerical root, and returns its value on the
codomain generator. -/
def transfer_embedding {E : Type} (domain codomain : EmbNumberField E)
    (iso_gen_image : E) : Except PyErr CVal :=
  match domain.gen_embedding with
  | none => .error .attributeError
  | some domain_numerical_root =>
    match pymin (fun embedding => cdistSq domain_numerical_root (embedding iso_gen_image))
        codomain.complex_embeddings with
    | none => .error .valueError
    | some special_embedding => .ok (special_embedding codomain.gen)

/-- Embeds `compare_embeddings` (lines 117-143): the second root defaults to the
field's own distinguished embedding and its absence raises; each root is
matched to the nearest complex embedding of the field (by value on the
generator) and the two selected homomorphisms are compared, which for
Sage embeddings amounts to comparing their generator images. -/
def compare_embeddings {E : Type} (field : EmbNumberField E)
    (first_numerical_root : CVal) (second_numerical_root : Option CVal) :
    Except PyErr Bool :=
  let second := match second_numerical_root with
    | some v => some v
    | none => field.gen_embedding
  match second with
  | none => .error .attributeError
  | some snd =>
    match pymin (fun embedding => cdistSq first_numerical_root (embedding field.gen))
            field.complex_embeddings,
          pymin (fun embedding => cdistSq snd (embedding field.gen))
            field.complex_embeddings with
    | some first_embedding, some second_embedding =>
        .ok (decide (first_embedding field.gen = second_embedding field.gen))
    | _, _ => .error .valueError

/-- Embeds `isomorphic_respecting_embeddings` (lines 146-158): false when no
isomorphism exists; otherwise the first homomorphism in the list is used
to transfer the first field's embedding, which is compared against the
second field's distinguished embedding.  `factorization` is the backend
factorization of the first field's defining polynomial over the second. -/
def isomorphic_respecting_embeddings {E : Type}
    (factorization : List (FactorDatum E × Nat))
    (first_field second_field : EmbNumberField E) : Except PyErr Bool :=
  let iso_list := isomorphisms_between_number_fields factorization
  match iso_list with
  | [] => .ok false
  | isomorphism :: _ =>
    match transfer_embedding first_field second_field isomorphism with
    | .error e => .error e
    | .ok transfered_root => compare_embeddings second_field transfered_root none

end FieldIso

section SpecSide

/-- Modelled from the spec (§4.7): "Let r = number of real places and
c = number of complex places of the invariant trace field (r + 2c =
field degree), and let ρ = count of real places at which the invariant
quaternion algebra ramifies.  The manifold's group is arithmetic iff
ρ = r, c = 1, and the denominator set is empty." -/
def arithmetic_per_spec {Idl : Type} (real_place_count complex_place_count
    ramified_real_count : Nat) (denom_set : Finset Idl) : Prop :=
  ramified_real_count = real_place_count ∧ complex_place_count = 1 ∧ denom_set = ∅

/-- Modelled from the spec (§4.5): the "sorted, duplicate-free set of
residue characteristics (rational primes below each ramified ideal)". -/
def residue_chars_per_spec {Idl : Type} [DecidableEq Idl]
    (prime_below : Idl → Nat) (places : List Idl) : List Nat :=
  ((places.map prime_below).dedup).insertionSort (· ≤ ·)

/-- The spec's monotonicity property (§8): the attempted `(prec, degree)`
pairs are non-decreasing in both coordinates. -/
def attemptsMonotone (l : List (Nat × Nat)) : Prop :=
  l.Pairwise (fun a b => a.1 ≤ b.1 ∧ a.2 ≤ b.2)

/-- The spec's no-revisit property (§8): no pair is attempted twice
within one invocation. -/
def attemptsNoRepeat (l : List (Nat × Nat)) : Prop := l.Nodup

/-- Strict progress between successive attempts: both coordinates
non-decreasing and the pair changed; `Pairwise stepOrder` yields both
`attemptsMonotone` and `attemptsNoRepeat`. -/
def stepOrder (a b : Nat × Nat) : Prop := a.1 ≤ b.1 ∧ a.2 ≤ b.2 ∧ a ≠ b

end SpecSide

section Concrete

/-- The attribute state created by `ManifoldAP.__init__` (lines 52-68):
every invariant unknown, fresh attempt records. -/
def initState {K R G Q Idl : Type} : RecState K R G Q Idl :=
  { trace_field := none
    trace_field_numerical_root := none
    trace_field_generators := none
    trace_field_prec_record := pdEmpty
    invariant_trace_field := none
    invariant_trace_field_numerical_root := none
    invariant_trace_field_generators := none
    invariant_trace_field_prec_record := pdEmpty
    quaternion_algebra := none
    quaternion_algebra_ramified_places := none
    quaternion_algebra_ramified_places_residue_characteristics := none
    invariant_quaternion_algebra := none
    invariant_quaternion_algebra_ramified_places := none
    invariant_quaternion_algebra_ramified_places_residue_characteristics := none
    denominators := none
    denominator_residue_characteristics := none }

/-- A backend whose recognizer and expression steps always fail (the
spec's "recognizer stubbed to always fail", §8), over a manifold whose
invariant trace field is imaginary quadratic: Sage signature `(0, 1)`
(no real embeddings, one complex pair — e.g. Q(sqrt(-3)), the invariant
trace field of the figure-eight knot complement) and hence no ramified
real places. -/
def bFail : Backend Unit Unit Unit Unit Unit Unit Unit ℤ Unit Unit Unit where
  tf_find := fun _ _ => none
  itf_find := fun _ _ => none
  polished := fun _ => ()
  hilbert_words := fun _ => ((), ())
  commutator_of_words := fun _ _ => ()
  approx_trace := fun _ => 0
  express := fun _ _ _ => none
  quat := fun _ _ _ => ()
  disc_factor := fun _ => []
  abs_norm := fun _ => 0
  denom_ideal := fun _ => ()
  did_factor := fun _ => []
  sig := fun _ => (0, 1)
  ramified_real_places := fun _ => []

/-- A backend modelling a successful quaternion-algebra construction over
Q(i): ideals are (residue characteristic, residue degree) pairs with
`absolute_norm = p ^ f`; the discriminant factors as P2 * P3 with
P2 = (1 + i) (over 2, residue degree 1, norm 2) and P3 = (3) inert
(over 3, residue degree 2, norm 9). -/
def bNorm : Backend Unit Unit Unit Unit (Nat × Nat) Unit Unit ℤ Unit Unit Unit where
  tf_find := fun _ _ => none
  itf_find := fun _ _ => none
  polished := fun _ => ()
  hilbert_words := fun _ => ((), ())
  commutator_of_words := fun _ _ => ()
  approx_trace := fun _ => 0
  express := fun _ _ _ => some ()
  quat := fun _ _ _ => ()
  disc_factor := fun _ => [((2, 1), 1), ((3, 2), 1)]
  abs_norm := fun pf => pf.1 ^ pf.2
  denom_ideal := fun _ => ()
  did_factor := fun _ => []
  sig := fun _ => (0, 1)
  ramified_real_places := fun _ => []

/-- State with invariant trace field, invariant quaternion algebra and an
empty denominator set all present. -/
def sArith : RecState Unit Unit Unit Unit Unit :=
  { (initState : RecState Unit Unit Unit Unit Unit) with
    invariant_trace_field := some ()
    invariant_quaternion_algebra := some ()
    denominators := some ∅ }

/-- State with invariant trace field and invariant quaternion algebra
present but the denominator set not yet computed. -/
def sNoDenoms : RecState Unit Unit Unit Unit Unit :=
  { (initState : RecState Unit Unit Unit Unit Unit) with
    invariant_trace_field := some ()
    invariant_quaternion_algebra := some () }

/-- State in which the trace field and its numerical root are already
known (so fixed-precision quaternion computations skip recognition). -/
def sKnownTF : RecState Unit Unit Unit Unit Unit :=
  { (initState : RecState Unit Unit Unit Unit Unit) with
    trace_field := some ()
    trace_field_numerical_root := some () }

/-- As `sKnownTF`, over the `(Nat × Nat)` ideal instantiation. -/
def sKnownTF2 : RecState Unit Unit Unit Unit (Nat × Nat) :=
  { (initState : RecState Unit Unit Unit Unit (Nat × Nat)) with
    trace_field := some ()
    trace_field_numerical_root := some () }

/-- State in which both quaternion algebras and the (empty) denominator
set are already stored. -/
def sKnownAll : RecState Unit Unit Unit Unit Unit :=
  { (initState : RecState Unit Unit Unit Unit Unit) with
    quaternion_algebra := some ()
    invariant_quaternion_algebra := some ()
    denominators := some ∅ }

/-
Concrete data for the field-isomorphism claims, over the element carrier
`Fin 2`: element `0` stands for the rational number 2 viewed inside
either field, element `1` for the generator i of Q(i).
-/

/-- The embedding of Q(i) sending i to -i (listed first: Sage's
`complex_embeddings()` for `x^2 + 1` orders the roots -i, i). -/
def tauNeg : Fin 2 → CVal := fun e => if e = 0 then (2, 0) else (0, -1)

/-- The embedding of Q(i) sending i to i. -/
def tauPos : Fin 2 → CVal := fun e => if e = 0 then (2, 0) else (0, 1)

/-- Model of `NumberField(x^2 + 1, embedding=-I)`: the field Q(i) with
distinguished root -i. -/
def fieldQi : EmbNumberField (Fin 2) :=
  { gen := 1
    gen_embedding := some (0, -1)
    complex_embeddings := [tauNeg, tauPos] }

/-- Model of `NumberField(x - 2, embedding=2)`: the degree-one number field with
generator 2 and its single (real) complex embedding. -/
def fieldQQ : EmbNumberField (Fin 2) :=
  { gen := 0
    gen_embedding := some (2, 0)
    complex_embeddings := [fun _ => (2, 0)] }

/-- Model of `NumberField(x^2 - 2)` without a distinguished embedding; its two
real embeddings send the generator to the irrational values ±sqrt(2),
which the evaluated code paths below never read (placeholder values). -/
def fieldQsqrt2 : EmbNumberField (Fin 2) :=
  { gen := 1
    gen_embedding := none
    complex_embeddings := [fun _ => (0, 0), fun _ => (0, 0)] }

/-- Sage's factorization of `x - 2` over Q(i): the single linear factor
`x - 2`, contributing the root 2 (element `0`). -/
def facLinear2 : List (FactorDatum (Fin 2) × Nat) :=
  [({ degree := 1, negConstantTerm := 0 }, 1)]

/-- Sage's factorization of `x^2 + 1` over a field not containing i (it
stays irreducible of degree 2; the `negConstantTerm` of a non-linear
factor is never consulted). -/
def facIrreducibleQuadratic : List (FactorDatum (Fin 2) × Nat) :=
  [({ degree := 2, negConstantTerm := 0 }, 1)]

/-- Sage's factorization of `x^2 - 2` over Q(i) (irreducible). -/
def facIrreducibleQuadratic2 : List (FactorDatum (Fin 2) × Nat) :=
  [({ degree := 2, negConstantTerm := 1 }, 1)]

/-- The full `(prec, degree)` schedule an escalation loop would attempt
if every step failed: every loop's actual attempt list is a prefix of
this (they share the maxima check and the `bump` updates verbatim). -/
def escalationSchedule (prec_increment degree_increment max_precision max_degree : Nat) :
    Nat → Nat → Nat → List (Nat × Nat)
  | 0, _, _ => []
  | fuel + 1, prec, degree =>
    if prec = max_precision ∧ degree = max_degree then [(prec, degree)]
    else
      (prec, degree) :: escalationSchedule prec_increment degree_increment
        max_precision max_degree fuel (bump prec_increment max_precision prec)
        (bump degree_increment max_degree degree)

end Concrete

/-- C1: the code does not compute the claimed arithmeticity criterion.
On a record whose invariant trace field has Sage signature `(0, 1)` — no
real places, one complex place, e.g. Q(sqrt(-3)), with no ramified real
places and an empty denominator set — the spec's criterion (ramified
real places = real places, complex places = 1, denominators empty)
holds, yet `is_arithmetic` returns `False`: the source unpacks
`signature()` into `(number_of_complex_places, number_of_real_places)`,
swapping the two counts. -/
theorem c1_signature_swap_code_bug :
    is_arithmetic bFail sArith = .ok false ∧
    arithmetic_per_spec (bFail.sig ()).1 (bFail.sig ()).2
      (bFail.ramified_real_places ()).length (∅ : Finset Unit) :=
  ⟨rfl, rfl, rfl, rfl⟩

/-- C2: on a successful run, the stored "residue characteristics" are the
sorted deduplicated `absolute_norm` values of the ramified ideals, not
the rational primes below them: over Q(i) with discriminant `P2 * P3`
(`P3 = (3)` inert of norm 9), the code stores `[2, 9]` where the claim
requires `[2, 3]`.  The ramified-places component itself does match the
factorization with multiplicities discarded. -/
theorem c2_norms_stored_not_residue_chars :
    (compute_quaternion_algebra_fixed_prec bNorm sKnownTF2 1000 10).1 = some () ∧
    (compute_quaternion_algebra_fixed_prec bNorm sKnownTF2 1000 10).2.quaternion_algebra_ramified_places
      = some [(2, 1), (3, 2)] ∧
    (compute_quaternion_algebra_fixed_prec bNorm sKnownTF2 1000 10).2.quaternion_algebra_ramified_places_residue_characteristics
      = some [2, 9] ∧
    residue_chars_per_spec (fun pf => pf.1) [(2, 1), (3, 2)] = [2, 3] ∧
    some [2, 9] ≠ some ([2, 3] : List Nat) := by
  refine ⟨rfl, rfl, by decide, by decide, by decide⟩

/-- C3 (counterexample): with the invariant trace field and the invariant
quaternion algebra present but the denominator set absent,
`is_arithmetic` returns `False` (Python's `None == set()` is `False`)
instead of raising, contradicting the claim that a missing operand always
raises and `False` is never returned in that situation. -/
theorem c3_counterexample_denominators_absent :
    is_arithmetic bFail sNoDenoms = .ok false := rfl

/-- C3 (amended): `is_arithmetic` raises exactly when the invariant trace
field or the invariant quaternion algebra is absent; when both are
present but the denominator set is absent it silently returns `False`
(the absent set merely fails the `== set()` test). -/
theorem c3_amended_missing_inputs {K R G Q Idl DId F A Grp Word P : Type} [DecidableEq Idl]
    (b : Backend K R G Q Idl DId F A Grp Word P) (s : RecState K R G Q Idl) :
    (s.invariant_trace_field = none → is_arithmetic b s = .error .attributeError) ∧
    (∀ itf, s.invariant_trace_field = some itf → s.invariant_quaternion_algebra = none →
      is_arithmetic b s = .error .attributeError) ∧
    (∀ itf alg, s.invariant_trace_field = some itf →
      s.invariant_quaternion_algebra = some alg → s.denominators = none →
      is_arithmetic b s = .ok false) := by
  refine ⟨?_, ?_, ?_⟩
  · intro h
    simp [is_arithmetic, h]
  · intro itf h1 h2
    simp [is_arithmetic, h1, h2]
  · intro itf alg h1 h2 h3
    simp [is_arithmetic, h1, h2, h3, pyDenomsEqEmptySet]

/-- Witness for the amended C3 at a concrete input: an absent invariant
trace field raises. -/
theorem c3_amended_missing_inputs_witness :
    is_arithmetic bFail { sArith with invariant_trace_field := none }
      = .error .attributeError :=
  (c3_amended_missing_inputs bFail { sArith with invariant_trace_field := none }).1 rfl

/-- C7: `compute_approximate_hilbert_symbol` never forwards `power` to
the word search, so the selected word pair — and hence the whole result —
is identical for every power (in particular for the `power=2` call made
by `compute_invariant_quaternion_algebra_fixed_prec`), contradicting the
claimed selection from the n-th term of the derived series; the returned
entries do have the claimed shape
`(trace(g)^2 - 4, trace([g,h]) - 2)`. -/
theorem c7_power_never_forwarded {K R G Q Idl DId F A Grp Word P : Type} [CommRing A]
    (b : Backend K R G Q Idl DId F A Grp Word P) (n m : Nat) :
    compute_approximate_hilbert_symbol b n = compute_approximate_hilbert_symbol b m ∧
    compute_approximate_hilbert_symbol b n =
      (b.approx_trace (hilbert_symbol_words b).1 ^ 2 - 4,
        b.approx_trace
          (b.commutator_of_words (hilbert_symbol_words b).1 (hilbert_symbol_words b).2)
          - 2) :=
  ⟨rfl, rfl⟩

/-- C8 (counterexample): `isomorphic_respecting_embeddings` is not
symmetric.  For `A = NumberField(x - 2, embedding=2)` (the rationals as
a degree-one field) and `B = NumberField(x^2 + 1, embedding=-I)`, the
polynomial `x - 2` has the root 2 in B, so the A-to-B direction finds a
homomorphism, transfers the embedding and answers `True`; but `x^2 + 1`
has no root in A, so the B-to-A direction answers `False`. -/
theorem c8_counterexample_asymmetric :
    isomorphic_respecting_embeddings facLinear2 fieldQQ fieldQi = .ok true ∧
    isomorphic_respecting_embeddings facIrreducibleQuadratic fieldQi fieldQQ = .ok false := by
  constructor
  · norm_num [isomorphic_respecting_embeddings, isomorphisms_between_number_fields,
      facLinear2, transfer_embedding, fieldQQ, fieldQi, pymin, cdistSq, tauNeg, tauPos,
      List.foldl, compare_embeddings]
  · norm_num [isomorphic_respecting_embeddings, isomorphisms_between_number_fields,
      facIrreducibleQuadratic]

/-- The homomorphism list is empty when the factorization has no linear
factor. -/
theorem isomorphisms_empty_of_no_linear {E : Type}
    (factorization : List (FactorDatum E × Nat))
    (h : ∀ f ∈ factorization, f.1.degree ≠ 1) :
    isomorphisms_between_number_fields factorization = [] := by
  unfold isomorphisms_between_number_fields
  rw [List.map_eq_nil_iff, List.filter_eq_nil_iff]
  intro a ha
  rcases List.mem_map.mp ha with ⟨f, hf, rfl⟩
  simpa using h f hf

/-- C8 (amended): the symmetry
`isomorphic_respecting_embeddings(A,B) = isomorphic_respecting_embeddings(B,A)`
is guaranteed when the defining polynomial of neither field has a root in
the other (no linear factor in either factorization): both directions
then return `False`.  When a root exists in exactly one direction the two
calls can disagree (see the counterexample), and when homomorphisms exist
in both directions the outcome depends on the backend's factorization and
embedding order, which the code does not control. -/
theorem c8_amended_symmetric_without_roots {E : Type}
    (facAB facBA : List (FactorDatum E × Nat)) (A B : EmbNumberField E)
    (hAB : ∀ f ∈ facAB, f.1.degree ≠ 1) (hBA : ∀ f ∈ facBA, f.1.degree ≠ 1) :
    isomorphic_respecting_embeddings facAB A B
      = isomorphic_respecting_embeddings facBA B A := by
  unfold isomorphic_respecting_embeddings
  rw [isomorphisms_empty_of_no_linear facAB hAB,
    isomorphisms_empty_of_no_linear facBA hBA]

/-- Witness for the amended C8 at a concrete input: Q(i) and Q(sqrt 2) —
`x^2 + 1` has no root in Q(sqrt 2) and `x^2 - 2` has no root in Q(i), so
both directions agree (on `False`). -/
theorem c8_amended_symmetric_without_roots_witness :
    isomorphic_respecting_embeddings facIrreducibleQuadratic fieldQi fieldQsqrt2
      = isomorphic_respecting_embeddings facIrreducibleQuadratic2 fieldQsqrt2 fieldQi :=
  c8_amended_symmetric_without_roots facIrreducibleQuadratic facIrreducibleQuadratic2
    fieldQi fieldQsqrt2 (by decide) (by decide)

/-- C6: with starting precision and degree already at their maxima and
the recognizer failing there, `compute_trace_field` makes exactly one
fixed-precision attempt — at `(max_precision, max_degree)` — and returns
`None`; in particular the failed attempt leaves the stored trace field
unchanged. -/
theorem c6_single_attempt_at_maxima {K R G Q Idl DId F A Grp Word P : Type}
    (b : Backend K R G Q Idl DId F A Grp Word P)
    (prec_increment degree_increment max_precision max_degree fuel : Nat)
    (s : RecState K R G Q Idl)
    (hfail : b.tf_find max_precision max_degree = none) (hfuel : 1 ≤ fuel) :
    compute_trace_field b max_precision max_degree prec_increment degree_increment
        max_precision max_degree fuel s
      = ⟨none, (compute_trace_field_fixed_prec b s max_precision max_degree).2,
          [(max_precision, max_degree)]⟩ ∧
    (compute_trace_field_fixed_prec b s max_precision max_degree).2.trace_field
      = s.trace_field := by
  obtain ⟨n, rfl⟩ : ∃ n, fuel = n + 1 := ⟨fuel - 1, by omega⟩
  constructor
  · simp [compute_trace_field, compute_trace_field_loop]
  · simp [compute_trace_field_fixed_prec, hfail]

/-- Witness for C6 at a concrete input: a single failing attempt at the
maxima `(2, 3)`. -/
theorem c6_single_attempt_at_maxima_witness :
    bFail.tf_find 2 3 = none ∧ 1 ≤ 1 ∧
    (compute_trace_field bFail 2 3 7 7 2 3 1 (initState : RecState Unit Unit Unit Unit Unit)
      = ⟨none, (compute_trace_field_fixed_prec bFail initState 2 3).2, [(2, 3)]⟩ ∧
    (compute_trace_field_fixed_prec bFail
      (initState : RecState Unit Unit Unit Unit Unit) 2 3).2.trace_field
      = (initState : RecState Unit Unit Unit Unit Unit).trace_field) :=
  ⟨rfl, by omega, c6_single_attempt_at_maxima bFail 7 7 2 3 1 initState rfl (by omega)⟩

/-- C9: whenever expressing either Hilbert-symbol entry in the primitive
element fails (`express` returns `None`), the fixed-precision
quaternion-algebra computations return `None` with the state — in
particular every quaternion-algebra attribute — completely unchanged, and
no exception arises (the functions are total); this holds for both the
trace-field and the invariant-trace-field versions. -/
theorem c9_express_failure_returns_none {K R G Q Idl DId F A Grp Word P : Type}
    [CommRing A] (b : Backend K R G Q Idl DId F A Grp Word P)
    (s : RecState K R G Q Idl) (prec degree : Nat) :
    (∀ k r, s.trace_field = some k → s.trace_field_numerical_root = some r →
      (b.express r (compute_approximate_hilbert_symbol b 1).1 prec = none ∨
        b.express r (compute_approximate_hilbert_symbol b 1).2 prec = none) →
      compute_quaternion_algebra_fixed_prec b s prec degree = (none, s)) ∧
    (∀ k r, s.invariant_trace_field = some k →
      s.invariant_trace_field_numerical_root = some r →
      (b.express r (compute_approximate_hilbert_symbol b 2).1 prec = none ∨
        b.express r (compute_approximate_hilbert_symbol b 2).2 prec = none) →
      compute_invariant_quaternion_algebra_fixed_prec b s prec degree = (none, s)) := by
  constructor
  · intro k r h1 h2 hfail
    rcases hfail with hf | hf <;>
      cases he : b.express r (compute_approximate_hilbert_symbol b 1).1 prec <;>
      cases he2 : b.express r (compute_approximate_hilbert_symbol b 1).2 prec <;>
      simp_all [compute_quaternion_algebra_fixed_prec, h1, h2]
  · intro k r h1 h2 hfail
    rcases hfail with hf | hf <;>
      cases he : b.express r (compute_approximate_hilbert_symbol b 2).1 prec <;>
      cases he2 : b.express r (compute_approximate_hilbert_symbol b 2).2 prec <;>
      simp_all [compute_invariant_quaternion_algebra_fixed_prec, h1, h2]

/-- Witness for C9 at a concrete input: with the trace field known and a
failing `express`, the fixed-precision quaternion computation returns
`None` and leaves the state untouched. -/
theorem c9_express_failure_returns_none_witness :
    compute_quaternion_algebra_fixed_prec bFail sKnownTF 5 5 = (none, sKnownTF) :=
  (c9_express_failure_returns_none bFail sKnownTF 5 5).1 () () rfl rfl (Or.inl rfl)

/-- C10: when the corresponding invariant is already stored, the loops of
`compute_quaternion_algebra`, `compute_invariant_quaternion_algebra` and
`compute_denominators` are never entered: no attempt is made, the state
is returned unchanged, and the stored value is the result.  By contrast
`compute_trace_field` always makes at least one fixed-precision attempt,
whatever the state. -/
theorem c10_known_value_skips_loop {K R G Q Idl DId F A Grp Word P : Type}
    [CommRing A] [DecidableEq Idl] (b : Backend K R G Q Idl DId F A Grp Word P)
    (starting_prec starting_degree prec_increment degree_increment
      max_precision max_degree fuel : Nat) (s : RecState K R G Q Idl)
    (hfuel : 1 ≤ fuel) :
    (∀ q, s.quaternion_algebra = some q →
      compute_quaternion_algebra b starting_prec starting_degree prec_increment
        degree_increment max_precision max_degree fuel s = ⟨some q, s, []⟩) ∧
    (∀ q, s.invariant_quaternion_algebra = some q →
      compute_invariant_quaternion_algebra b starting_prec starting_degree prec_increment
        degree_increment max_precision max_degree fuel s = ⟨some q, s, []⟩) ∧
    (∀ d, s.denominators = some d →
      compute_denominators b starting_prec starting_degree prec_increment
        degree_increment max_precision max_degree fuel s = ⟨some d, s, []⟩) ∧
    (compute_trace_field b starting_prec starting_degree prec_increment
      degree_increment max_precision max_degree fuel s).attempts ≠ [] := by
  obtain ⟨n, rfl⟩ : ∃ n, fuel = n + 1 := ⟨fuel - 1, by omega⟩
  refine ⟨?_, ?_, ?_, ?_⟩
  · intro q hq
    simp [compute_quaternion_algebra, compute_quaternion_algebra_loop, hq]
  · intro q hq
    simp [compute_invariant_quaternion_algebra,
      compute_invariant_quaternion_algebra_loop, hq]
  · intro d hd
    simp [compute_denominators, compute_denominators_loop, hd]
  · simp only [compute_trace_field, compute_trace_field_loop]
    split
    · simp
    · split <;> simp

/-- Witness for C10 at a concrete input: stored quaternion algebras and
denominator set short-circuit their drivers, while `compute_trace_field`
still attempts. -/
theorem c10_known_value_skips_loop_witness :
    compute_quaternion_algebra bFail 1 1 1 1 2 2 3 sKnownAll = ⟨some (), sKnownAll, []⟩ ∧
    compute_invariant_quaternion_algebra bFail 1 1 1 1 2 2 3 sKnownAll
      = ⟨some (), sKnownAll, []⟩ ∧
    compute_denominators bFail 1 1 1 1 2 2 3 sKnownAll = ⟨some ∅, sKnownAll, []⟩ ∧
    (compute_trace_field bFail 1 1 1 1 2 2 3 sKnownAll).attempts ≠ [] :=
  ⟨(c10_known_value_skips_loop bFail 1 1 1 1 2 2 3 sKnownAll (by omega)).1 () rfl,
    (c10_known_value_skips_loop bFail 1 1 1 1 2 2 3 sKnownAll (by omega)).2.1 () rfl,
    (c10_known_value_skips_loop bFail 1 1 1 1 2 2 3 sKnownAll (by omega)).2.2.1 ∅ rfl,
    (c10_known_value_skips_loop bFail 1 1 1 1 2 2 3 sKnownAll (by omega)).2.2.2⟩

/-- One fixed-precision trace-field attempt records its own key. -/
theorem tf_fixed_record_set {K R G Q Idl DId F A Grp Word P : Type}
    (b : Backend K R G Q Idl DId F A Grp Word P) (s : RecState K R G Q Idl)
    (p d : Nat) :
    (compute_trace_field_fixed_prec b s p d).2.trace_field_prec_record (p, d)
      = some ((b.tf_find p d).isSome) := by
  cases h : b.tf_find p d <;> simp [compute_trace_field_fixed_prec, h, pdInsert]

/-- A fixed-precision trace-field attempt can only rewrite a key with the
same success value that key always receives. -/
theorem tf_fixed_record_preserve {K R G Q Idl DId F A Grp Word P : Type}
    (b : Backend K R G Q Idl DId F A Grp Word P) (s : RecState K R G Q Idl)
    (p d : Nat) (pd : Nat × Nat)
    (h : s.trace_field_prec_record pd = some ((b.tf_find pd.1 pd.2).isSome)) :
    (compute_trace_field_fixed_prec b s p d).2.trace_field_prec_record pd
      = some ((b.tf_find pd.1 pd.2).isSome) := by
  by_cases hpd : pd = (p, d)
  · subst hpd
    exact tf_fixed_record_set b s p d
  · cases hf : b.tf_find p d <;>
      simp [compute_trace_field_fixed_prec, hf, pdInsert, hpd, h]

/-- The trace-field escalation loop preserves correctly-recorded keys. -/
theorem tf_loop_record_preserve {K R G Q Idl DId F A Grp Word P : Type}
    (b : Backend K R G Q Idl DId F A Grp Word P) (pinc dinc maxp maxd : Nat) :
    ∀ fuel p d s (pd : Nat × Nat),
      s.trace_field_prec_record pd = some ((b.tf_find pd.1 pd.2).isSome) →
      (compute_trace_field_loop b pinc dinc maxp maxd fuel p d s).state.trace_field_prec_record pd
        = some ((b.tf_find pd.1 pd.2).isSome) := by
  intro fuel
  induction fuel with
  | zero =>
    intro p d s pd h
    simpa [compute_trace_field_loop] using h
  | succ n ih =>
    intro p d s pd h
    have hstep := tf_fixed_record_preserve b s p d pd h
    simp only [compute_trace_field_loop]
    split
    · exact hstep
    · split
      · exact hstep
      · exact ih _ _ _ pd hstep

/-- Every pair attempted by the trace-field escalation loop ends up
recorded with the success value of the recognizer at that pair. -/
theorem tf_loop_records {K R G Q Idl DId F A Grp Word P : Type}
    (b : Backend K R G Q Idl DId F A Grp Word P) (pinc dinc maxp maxd : Nat) :
    ∀ fuel p d s (pd : Nat × Nat),
      pd ∈ (compute_trace_field_loop b pinc dinc maxp maxd fuel p d s).attempts →
      (compute_trace_field_loop b pinc dinc maxp maxd fuel p d s).state.trace_field_prec_record pd
        = some ((b.tf_find pd.1 pd.2).isSome) := by
  intro fuel
  induction fuel with
  | zero =>
    intro p d s pd h
    simp [compute_trace_field_loop] at h
  | succ n ih =>
    intro p d s pd h
    simp only [compute_trace_field_loop] at h ⊢
    by_cases hmax : p = maxp ∧ d = maxd
    · rw [if_pos hmax] at h ⊢
      obtain rfl := List.mem_singleton.mp h
      exact tf_fixed_record_set b s p d
    · rw [if_neg hmax] at h ⊢
      cases hstep : (compute_trace_field_fixed_prec b s p d).1 with
      | some k =>
        simp only [hstep] at h ⊢
        obtain rfl := List.mem_singleton.mp h
        exact tf_fixed_record_set b s p d
      | none =>
        simp only [hstep] at h ⊢
        rcases List.mem_cons.mp h with rfl | hmem
        · exact tf_loop_record_preserve b pinc dinc maxp maxd n _ _ _ _
            (tf_fixed_record_set b s p d)
        · exact ih _ _ _ pd hmem

/-- Invariant-trace-field version of `tf_fixed_record_set`. -/
theorem itf_fixed_record_set {K R G Q Idl DId F A Grp Word P : Type}
    (b : Backend K R G Q Idl DId F A Grp Word P) (s : RecState K R G Q Idl)
    (p d : Nat) :
    (compute_invariant_trace_field_fixed_prec b s p d).2.invariant_trace_field_prec_record (p, d)
      = some ((b.itf_find p d).isSome) := by
  cases h : b.itf_find p d <;>
    simp [compute_invariant_trace_field_fixed_prec, h, pdInsert]

/-- Invariant-trace-field version of `tf_fixed_record_preserve`. -/
theorem itf_fixed_record_preserve {K R G Q Idl DId F A Grp Word P : Type}
    (b : Backend K R G Q Idl DId F A Grp Word P) (s : RecState K R G Q Idl)
    (p d : Nat) (pd : Nat × Nat)
    (h : s.invariant_trace_field_prec_record pd = some ((b.itf_find pd.1 pd.2).isSome)) :
    (compute_invariant_trace_field_fixed_prec b s p d).2.invariant_trace_field_prec_record pd
      = some ((b.itf_find pd.1 pd.2).isSome) := by
  by_cases hpd : pd = (p, d)
  · subst hpd
    exact itf_fixed_record_set b s p d
  · cases hf : b.itf_find p d <;>
      simp [compute_invariant_trace_field_fixed_prec, hf, pdInsert, hpd, h]

/-- Invariant-trace-field version of `tf_loop_record_preserve`. -/
theorem itf_loop_record_preserve {K R G Q Idl DId F A Grp Word P : Type}
    (b : Backend K R G Q Idl DId F A Grp Word P) (pinc dinc maxp maxd : Nat) :
    ∀ fuel p d s (pd : Nat × Nat),
      s.invariant_trace_field_prec_record pd = some ((b.itf_find pd.1 pd.2).isSome) →
      (compute_invariant_trace_field_loop b pinc dinc maxp maxd fuel p d s).state.invariant_trace_field_prec_record pd
        = some ((b.itf_find pd.1 pd.2).isSome) := by
  intro fuel
  induction fuel with
  | zero =>
    intro p d s pd h
    simpa [compute_invariant_trace_field_loop] using h
  | succ n ih =>
    intro p d s pd h
    have hstep := itf_fixed_record_preserve b s p d pd h
    simp only [compute_invariant_trace_field_loop]
    split
    · exact hstep
    · split
      · exact hstep
      · exact ih _ _ _ pd hstep

/-- Invariant-trace-field version of `tf_loop_records`. -/
theorem itf_loop_records {K R G Q Idl DId F A Grp Word P : Type}
    (b : Backend K R G Q Idl DId F A Grp Word P) (pinc dinc maxp maxd : Nat) :
    ∀ fuel p d s (pd : Nat × Nat),
      pd ∈ (compute_invariant_trace_field_loop b pinc dinc maxp maxd fuel p d s).attempts →
      (compute_invariant_trace_field_loop b pinc dinc maxp maxd fuel p d s).state.invariant_trace_field_prec_record pd
        = some ((b.itf_find pd.1 pd.2).isSome) := by
  intro fuel
  induction fuel with
  | zero =>
    intro p d s pd h
    simp [compute_invariant_trace_field_loop] at h
  | succ n ih =>
    intro p d s pd h
    simp only [compute_invariant_trace_field_loop] at h ⊢
    by_cases hmax : p = maxp ∧ d = maxd
    · rw [if_pos hmax] at h ⊢
      obtain rfl := List.mem_singleton.mp h
      exact itf_fixed_record_set b s p d
    · rw [if_neg hmax] at h ⊢
      cases hstep : (compute_invariant_trace_field_fixed_prec b s p d).1 with
      | some k =>
        simp only [hstep] at h ⊢
        obtain rfl := List.mem_singleton.mp h
        exact itf_fixed_record_set b s p d
      | none =>
        simp only [hstep] at h ⊢
        rcases List.mem_cons.mp h with rfl | hmem
        · exact itf_loop_record_preserve b pinc dinc maxp maxd n _ _ _ _
            (itf_fixed_record_set b s p d)
        · exact ih _ _ _ pd hmem

/-- C4 (amended): for the two trace-field drivers, every attempted
`(prec, degree)` pair — successful or failed — is recorded in the
corresponding attempt-record dictionary under exactly that key, with the
boolean success of the recognizer at that pair.
`compute_quaternion_algebra` and `compute_denominators` maintain no
attempt record of their own (see the counterexample): their attempts
reach a record only indirectly, through the nested trace-field
recomputation, and only when the trace field was absent. -/
theorem c4_amended_trace_field_attempts_recorded {K R G Q Idl DId F A Grp Word P : Type}
    (b : Backend K R G Q Idl DId F A Grp Word P)
    (starting_prec starting_degree prec_increment degree_increment
      max_precision max_degree fuel : Nat) (s : RecState K R G Q Idl) :
    (∀ pd ∈ (compute_trace_field b starting_prec starting_degree prec_increment
        degree_increment max_precision max_degree fuel s).attempts,
      (compute_trace_field b starting_prec starting_degree prec_increment
        degree_increment max_precision max_degree fuel s).state.trace_field_prec_record pd
        = some ((b.tf_find pd.1 pd.2).isSome)) ∧
    (∀ pd ∈ (compute_invariant_trace_field b starting_prec starting_degree prec_increment
        degree_increment max_precision max_degree fuel s).attempts,
      (compute_invariant_trace_field b starting_prec starting_degree prec_increment
        degree_increment max_precision max_degree fuel s).state.invariant_trace_field_prec_record pd
        = some ((b.itf_find pd.1 pd.2).isSome)) :=
  ⟨fun pd h => tf_loop_records b prec_increment degree_increment max_precision
      max_degree fuel starting_prec starting_degree s pd h,
    fun pd h => itf_loop_records b prec_increment degree_increment max_precision
      max_degree fuel starting_prec starting_degree s pd h⟩

/-- Witness for the amended C4 at a concrete input: the failed attempt at
`(1, 1)` is recorded as `false`. -/
theorem c4_amended_trace_field_attempts_recorded_witness :
    (1, 1) ∈ (compute_trace_field bFail 1 1 1 1 1 1 1
      (initState : RecState Unit Unit Unit Unit Unit)).attempts ∧
    (compute_trace_field bFail 1 1 1 1 1 1 1
      (initState : RecState Unit Unit Unit Unit Unit)).state.trace_field_prec_record (1, 1)
      = some false :=
  ⟨by decide,
    (c4_amended_trace_field_attempts_recorded bFail 1 1 1 1 1 1 1 initState).1
      (1, 1) (by decide)⟩

/-- C4 (counterexample): a `compute_quaternion_algebra` run on a record
whose trace field is already known makes a fixed-precision attempt at
`(1, 1)` (which fails at the expression step), yet the final state is
bit-for-bit the initial one — in particular no attempt-record dictionary
anywhere in the record has an entry for `(1, 1)`. -/
theorem c4_counterexample_quaternion_attempt_unrecorded :
    (compute_quaternion_algebra bFail 1 1 1 1 1 1 1 sKnownTF).attempts = [(1, 1)] ∧
    (compute_quaternion_algebra bFail 1 1 1 1 1 1 1 sKnownTF).state = sKnownTF ∧
    sKnownTF.trace_field_prec_record (1, 1) = none ∧
    sKnownTF.invariant_trace_field_prec_record (1, 1) = none :=
  ⟨rfl, rfl, rfl, rfl⟩

/-- Lemma: `bump` never decreases a value within bounds. -/
theorem le_bump (inc maxv v : Nat) (h : v ≤ maxv) : v ≤ bump inc maxv v := by
  unfold bump
  split <;> omega

/-- Lemma: `bump` never exceeds the bound. -/
theorem bump_le_max (inc maxv v : Nat) : bump inc maxv v ≤ maxv := by
  unfold bump
  split <;> omega

/-- Lemma: `bump` strictly increases values strictly below the bound. -/
theorem lt_bump (inc maxv v : Nat) (hinc : 0 < inc) (h : v < maxv) :
    v < bump inc maxv v := by
  unfold bump
  split <;> omega

/-- Within bounds and with positive increments, the escalation schedule
makes strict componentwise progress. -/
theorem escalationSchedule_pairwise (pinc dinc maxp maxd : Nat)
    (hpinc : 0 < pinc) (hdinc : 0 < dinc) :
    ∀ fuel p d, p ≤ maxp → d ≤ maxd →
      (escalationSchedule pinc dinc maxp maxd fuel p d).Pairwise stepOrder ∧
      ∀ x ∈ escalationSchedule pinc dinc maxp maxd fuel p d,
        p ≤ x.1 ∧ d ≤ x.2 := by
  intro fuel
  induction fuel with
  | zero =>
    intro p d hp hd
    simp [escalationSchedule]
  | succ n ih =>
    intro p d hp hd
    by_cases hmax : p = maxp ∧ d = maxd
    · obtain ⟨rfl, rfl⟩ := hmax
      constructor
      · simp [escalationSchedule]
      · intro x hx
        simp [escalationSchedule] at hx
        rw [hx]
        exact ⟨Nat.le_refl _, Nat.le_refl _⟩
    · have hple := le_bump pinc maxp p hp
      have hdle := le_bump dinc maxd d hd
      have hpm := bump_le_max pinc maxp p
      have hdm := bump_le_max dinc maxd d
      have hstrict : p < bump pinc maxp p ∨ d < bump dinc maxd d := by
        rcases Nat.lt_or_ge p maxp with hlt | hge
        · exact Or.inl (lt_bump pinc maxp p hpinc hlt)
        · have hdlt : d < maxd := by omega
          exact Or.inr (lt_bump dinc maxd d hdinc hdlt)
      obtain ⟨ihpw, ihbd⟩ := ih (bump pinc maxp p) (bump dinc maxd d) hpm hdm
      have hcons : escalationSchedule pinc dinc maxp maxd (n + 1) p d
          = (p, d) :: escalationSchedule pinc dinc maxp maxd n
              (bump pinc maxp p) (bump dinc maxd d) := by
        simp [escalationSchedule, hmax]
      rw [hcons]
      constructor
      · refine List.pairwise_cons.mpr ⟨?_, ihpw⟩
        intro x hx
        obtain ⟨h1, h2⟩ := ihbd x hx
        refine ⟨by omega, by omega, ?_⟩
        intro heq
        rw [← heq] at h1 h2
        simp at h1 h2
        rcases hstrict with hs | hs <;> omega
      · intro x hx
        rcases List.mem_cons.mp hx with rfl | hx'
        · exact ⟨Nat.le_refl _, Nat.le_refl _⟩
        · obtain ⟨h1, h2⟩ := ihbd x hx'
          exact ⟨Nat.le_trans hple h1, Nat.le_trans hdle h2⟩

/-- The trace-field loop's attempts form a prefix of the schedule. -/
theorem tf_loop_prefix_of_schedule {K R G Q Idl DId F A Grp Word P : Type}
    (b : Backend K R G Q Idl DId F A Grp Word P) (pinc dinc maxp maxd : Nat) :
    ∀ fuel p d s,
      (compute_trace_field_loop b pinc dinc maxp maxd fuel p d s).attempts
        <+: escalationSchedule pinc dinc maxp maxd fuel p d := by
  intro fuel
  induction fuel with
  | zero =>
    intro p d s
    simp [compute_trace_field_loop, escalationSchedule]
  | succ n ih =>
    intro p d s
    by_cases hmax : p = maxp ∧ d = maxd
    · simp [compute_trace_field_loop, escalationSchedule, hmax]
    · cases hstep : (compute_trace_field_fixed_prec b s p d).1 with
      | some k =>
        simp only [compute_trace_field_loop, escalationSchedule, if_neg hmax, hstep]
        exact ⟨_, rfl⟩
      | none =>
        simp only [compute_trace_field_loop, escalationSchedule, if_neg hmax, hstep]
        obtain ⟨t, ht⟩ := ih (bump pinc maxp p) (bump dinc maxd d)
          (compute_trace_field_fixed_prec b s p d).2
        exact ⟨t, by rw [List.cons_append, ht]⟩

/-- The invariant-trace-field loop's attempts form a prefix of the
schedule. -/
theorem itf_loop_prefix_of_schedule {K R G Q Idl DId F A Grp Word P : Type}
    (b : Backend K R G Q Idl DId F A Grp Word P) (pinc dinc maxp maxd : Nat) :
    ∀ fuel p d s,
      (compute_invariant_trace_field_loop b pinc dinc maxp maxd fuel p d s).attempts
        <+: escalationSchedule pinc dinc maxp maxd fuel p d := by
  intro fuel
  induction fuel with
  | zero =>
    intro p d s
    simp [compute_invariant_trace_field_loop, escalationSchedule]
  | succ n ih =>
    intro p d s
    by_cases hmax : p = maxp ∧ d = maxd
    · simp [compute_invariant_trace_field_loop, escalationSchedule, hmax]
    · cases hstep : (compute_invariant_trace_field_fixed_prec b s p d).1 with
      | some k =>
        simp only [compute_invariant_trace_field_loop, escalationSchedule,
          if_neg hmax, hstep]
        exact ⟨_, rfl⟩
      | none =>
        simp only [compute_invariant_trace_field_loop, escalationSchedule,
          if_neg hmax, hstep]
        obtain ⟨t, ht⟩ := ih (bump pinc maxp p) (bump dinc maxd d)
          (compute_invariant_trace_field_fixed_prec b s p d).2
        exact ⟨t, by rw [List.cons_append, ht]⟩

/-- The quaternion-algebra loop's attempts form a prefix of the
schedule. -/
theorem qa_loop_prefix_of_schedule {K R G Q Idl DId F A Grp Word P : Type} [CommRing A]
    (b : Backend K R G Q Idl DId F A Grp Word P) (pinc dinc maxp maxd : Nat) :
    ∀ fuel p d s,
      (compute_quaternion_algebra_loop b pinc dinc maxp maxd fuel p d s).attempts
        <+: escalationSchedule pinc dinc maxp maxd fuel p d := by
  intro fuel
  induction fuel with
  | zero =>
    intro p d s
    simp [compute_quaternion_algebra_loop, escalationSchedule]
  | succ n ih =>
    intro p d s
    cases hqa : s.quaternion_algebra with
    | some q =>
      simp only [compute_quaternion_algebra_loop, hqa]
      exact List.nil_prefix
    | none =>
      by_cases hmax : p = maxp ∧ d = maxd
      · simp [compute_quaternion_algebra_loop, escalationSchedule, hqa, hmax]
      · simp only [compute_quaternion_algebra_loop, escalationSchedule,
          hqa, if_neg hmax]
        obtain ⟨t, ht⟩ := ih (bump pinc maxp p) (bump dinc maxd d)
          (compute_quaternion_algebra_fixed_prec b s p d).2
        exact ⟨t, by rw [List.cons_append, ht]⟩

/-- The invariant-quaternion-algebra loop's attempts form a prefix of the
schedule. -/
theorem iqa_loop_prefix_of_schedule {K R G Q Idl DId F A Grp Word P : Type} [CommRing A]
    (b : Backend K R G Q Idl DId F A Grp Word P) (pinc dinc maxp maxd : Nat) :
    ∀ fuel p d s,
      (compute_invariant_quaternion_algebra_loop b pinc dinc maxp maxd fuel p d s).attempts
        <+: escalationSchedule pinc dinc maxp maxd fuel p d := by
  intro fuel
  induction fuel with
  | zero =>
    intro p d s
    simp [compute_invariant_quaternion_algebra_loop, escalationSchedule]
  | succ n ih =>
    intro p d s
    cases hqa : s.invariant_quaternion_algebra with
    | some q =>
      simp only [compute_invariant_quaternion_algebra_loop, hqa]
      exact List.nil_prefix
    | none =>
      by_cases hmax : p = maxp ∧ d = maxd
      · simp [compute_invariant_quaternion_algebra_loop, escalationSchedule, hqa, hmax]
      · simp only [compute_invariant_quaternion_algebra_loop, escalationSchedule,
          hqa, if_neg hmax]
        obtain ⟨t, ht⟩ := ih (bump pinc maxp p) (bump dinc maxd d)
          (compute_invariant_quaternion_algebra_fixed_prec b s p d).2
        exact ⟨t, by rw [List.cons_append, ht]⟩

/-- The denominators loop's attempts form a prefix of the schedule. -/
theorem den_loop_prefix_of_schedule {K R G Q Idl DId F A Grp Word P : Type} [DecidableEq Idl]
    (b : Backend K R G Q Idl DId F A Grp Word P) (pinc dinc maxp maxd : Nat) :
    ∀ fuel p d s,
      (compute_denominators_loop b pinc dinc maxp maxd fuel p d s).attempts
        <+: escalationSchedule pinc dinc maxp maxd fuel p d := by
  intro fuel
  induction fuel with
  | zero =>
    intro p d s
    simp [compute_denominators_loop, escalationSchedule]
  | succ n ih =>
    intro p d s
    cases hden : s.denominators with
    | some v =>
      simp only [compute_denominators_loop, hden]
      exact List.nil_prefix
    | none =>
      by_cases hmax : p = maxp ∧ d = maxd
      · simp [compute_denominators_loop, escalationSchedule, hden, hmax]
      · simp only [compute_denominators_loop, escalationSchedule, hden, if_neg hmax]
        obtain ⟨t, ht⟩ := ih (bump pinc maxp p) (bump dinc maxd d)
          (compute_denominators_fixed_prec b s p d).2
        exact ⟨t, by rw [List.cons_append, ht]⟩

/-- C5 (amended): provided the starting precision and degree do not
exceed their maxima (in addition to the claimed positive increments), a
single invocation of any of the five escalation drivers attempts a
sequence of `(prec, degree)` pairs that is non-decreasing in both
coordinates with no pair attempted twice.  Without the added bound the
first attempt can exceed the maxima and the clamped second attempt then
decreases a coordinate (see the counterexample). -/
theorem c5_amended_monotone_within_bounds {K R G Q Idl DId F A Grp Word P : Type}
    [CommRing A] [DecidableEq Idl] (b : Backend K R G Q Idl DId F A Grp Word P)
    (starting_prec starting_degree prec_increment degree_increment
      max_precision max_degree fuel : Nat) (s : RecState K R G Q Idl)
    (hpinc : 0 < prec_increment) (hdinc : 0 < degree_increment)
    (hsp : starting_prec ≤ max_precision) (hsd : starting_degree ≤ max_degree) :
    (attemptsMonotone (compute_trace_field b starting_prec starting_degree prec_increment
        degree_increment max_precision max_degree fuel s).attempts ∧
      attemptsNoRepeat (compute_trace_field b starting_prec starting_degree prec_increment
        degree_increment max_precision max_degree fuel s).attempts) ∧
    (attemptsMonotone (compute_invariant_trace_field b starting_prec starting_degree
        prec_increment degree_increment max_precision max_degree fuel s).attempts ∧
      attemptsNoRepeat (compute_invariant_trace_field b starting_prec starting_degree
        prec_increment degree_increment max_precision max_degree fuel s).attempts) ∧
    (attemptsMonotone (compute_quaternion_algebra b starting_prec starting_degree
        prec_increment degree_increment max_precision max_degree fuel s).attempts ∧
      attemptsNoRepeat (compute_quaternion_algebra b starting_prec starting_degree
        prec_increment degree_increment max_precision max_degree fuel s).attempts) ∧
    (attemptsMonotone (compute_invariant_quaternion_algebra b starting_prec starting_degree
        prec_increment degree_increment max_precision max_degree fuel s).attempts ∧
      attemptsNoRepeat (compute_invariant_quaternion_algebra b starting_prec starting_degree
        prec_increment degree_increment max_precision max_degree fuel s).attempts) ∧
    (attemptsMonotone (compute_denominators b starting_prec starting_degree
        prec_increment degree_increment max_precision max_degree fuel s).attempts ∧
      attemptsNoRepeat (compute_denominators b starting_prec starting_degree
        prec_increment degree_increment max_precision max_degree fuel s).attempts) := by
  obtain ⟨hpw, _⟩ := escalationSchedule_pairwise prec_increment degree_increment
    max_precision max_degree hpinc hdinc fuel starting_prec starting_degree hsp hsd
  have key : ∀ l, l <+: escalationSchedule prec_increment degree_increment
      max_precision max_degree fuel starting_prec starting_degree →
      attemptsMonotone l ∧ attemptsNoRepeat l := by
    intro l hl
    have pw := hpw.sublist hl.sublist
    exact ⟨pw.imp (fun h => ⟨h.1, h.2.1⟩), pw.imp (fun h => h.2.2)⟩
  exact ⟨key _ (tf_loop_prefix_of_schedule b _ _ _ _ fuel _ _ s),
    key _ (itf_loop_prefix_of_schedule b _ _ _ _ fuel _ _ s),
    key _ (qa_loop_prefix_of_schedule b _ _ _ _ fuel _ _ s),
    key _ (iqa_loop_prefix_of_schedule b _ _ _ _ fuel _ _ s),
    key _ (den_loop_prefix_of_schedule b _ _ _ _ fuel _ _ s)⟩

/-- Witness for the amended C5 at a concrete input. -/
theorem c5_amended_monotone_within_bounds_witness :
    0 < 1 ∧ (1 : Nat) ≤ 2 ∧
    attemptsMonotone (compute_trace_field bFail 1 1 1 1 2 2 9
      (initState : RecState Unit Unit Unit Unit Unit)).attempts ∧
    attemptsNoRepeat (compute_trace_field bFail 1 1 1 1 2 2 9
      (initState : RecState Unit Unit Unit Unit Unit)).attempts :=
  ⟨by omega, by omega,
    ((c5_amended_monotone_within_bounds bFail 1 1 1 1 2 2 9 initState
      (by omega) (by omega) (by omega) (by omega)).1).1,
    ((c5_amended_monotone_within_bounds bFail 1 1 1 1 2 2 9 initState
      (by omega) (by omega) (by omega) (by omega)).1).2⟩

/-- C5 (counterexample): with positive increments but a starting
precision above the maximum, `compute_trace_field` attempts
`(10, 1), (5, 2), (5, 3)` — the precision coordinate decreases after the
first attempt, so the attempted sequence is not non-decreasing in both
coordinates. -/
theorem c5_counterexample_decreasing_precision :
    (compute_trace_field bFail 10 1 1 1 5 3 10
      (initState : RecState Unit Unit Unit Unit Unit)).attempts
      = [(10, 1), (5, 2), (5, 3)] ∧
    ¬ (attemptsMonotone [(10, 1), (5, 2), (5, 3)] ∧
        attemptsNoRepeat [(10, 1), (5, 2), (5, 3)]) := by
  constructor
  · rfl
  · intro hc
    have := (List.pairwise_cons.mp hc.1).1 (5, 2) (by simp)
    omega

end SnappyNT
